import Mathlib

/-
Verification of the netbird extension compatibility shim.

Shallow embedding of the extension-manager subsystem:
  - src/src/main/extension-manager.js   (main-process ExtensionManager class)
  - src/src/modules/ExtensionManager.js (renderer-side ExtensionManager class)
  - src/src/main/main.js                (IPC registrations)
  - src/unnamed/part_005                (popup preload performing the
                                         synchronous get-popup-init-data request)

JavaScript values that the code manipulates (manifests, storage items) are
modelled by a small JSON value type; machine-level details that the claims do
not touch (unicode case folding beyond ASCII, electron-store dot-notation
nesting, Buffer internals) are noted at the definition they concern.
-/

/-- JSON values, the data parsed from manifest.json and stored by the
storage bridge.  Functions and `undefined` are not representable, matching
the "safe manifest" clone the code produces. -/
inductive Json : Type
  | null : Json
  | bool (b : Bool) : Json
  | num (n : Int) : Json
  | str (s : String) : Json
  | arr (xs : List Json) : Json
  | obj (fields : List (String × Json)) : Json
deriving Repr

/-- Structural equality on JSON values (used to state theorems). -/
def Json.beq : Json → Json → Bool
  | .null, .null => true
  | .bool a, .bool b => a = b
  | .num a, .num b => a = b
  | .str a, .str b => a = b
  | .arr a, .arr b => beqList a b
  | .obj a, .obj b => beqFields a b
  | _, _ => false
where
  beqList : List Json → List Json → Bool
    | [], [] => true
    | x :: xs, y :: ys => Json.beq x y && beqList xs ys
    | _, _ => false
  beqFields : List (String × Json) → List (String × Json) → Bool
    | [], [] => true
    | (k, x) :: xs, (l, y) :: ys => k = l && Json.beq x y && beqFields xs ys
    | _, _ => false

instance : BEq Json := ⟨Json.beq⟩

/-- Association-list lookup; models `Map.get` / JS object property lookup. -/
def assocGet {κ α : Type} [DecidableEq κ] : List (κ × α) → κ → Option α
  | [], _ => none
  | (k, v) :: rest, key => if k = key then some v else assocGet rest key

/-- Association-list update preserving insertion order; models `Map.set`
(and JS property assignment): replaces an existing binding in place,
otherwise appends at the end. -/
def assocSet {κ α : Type} [DecidableEq κ] : List (κ × α) → κ → α → List (κ × α)
  | [], key, v => [(key, v)]
  | (k, w) :: rest, key, v =>
      if k = key then (k, v) :: rest else (k, w) :: assocSet rest key v

/-- Association-list removal; models `Map.delete`. -/
def assocErase {κ α : Type} [DecidableEq κ] : List (κ × α) → κ → List (κ × α)
  | [], _ => []
  | (k, w) :: rest, key =>
      if k = key then rest else (k, w) :: assocErase rest key

/-- Membership test; models `Map.has`. -/
def assocHas {κ α : Type} [DecidableEq κ] (l : List (κ × α)) (key : κ) : Bool :=
  (assocGet l key).isSome

/-- Property access `manifest.name`: `none` models JS `undefined`. -/
def jsGet : Json → String → Option Json
  | .obj fields, key => assocGet fields key
  | _, _ => none

/-- Optional chaining `a?.b` on an already-optional value. -/
def jsGetOpt (o : Option Json) (key : String) : Option Json :=
  match o with
  | none => none
  | some j => jsGet j key

/-- JS truthiness of a possibly-undefined value: `undefined`, `null`,
`false`, `0` and `""` are falsy, everything else truthy. -/
def jsTruthy : Option Json → Bool
  | none => false
  | some .null => false
  | some (.bool b) => b
  | some (.num n) => n ≠ 0
  | some (.str s) => s ≠ ""
  | some (.arr _) => true
  | some (.obj _) => true

/-- JS `a || b` (value-returning or): the first operand when truthy,
otherwise the second. -/
def jsOr (a b : Option Json) : Option Json :=
  if jsTruthy a then a else b

/- ===== Path utilities (Node's `path` module on POSIX absolute paths) =====
All implemented structurally over `List Char` so that proofs can evaluate
them by kernel reduction. -/

/-- Split a character list on a separator character (the semantics of
`s.split(sep)`): `splitCharList sep [] "a/b".toList = [['a'], ['b']]`. -/
def splitCharList (sep : Char) : List Char → List Char → List (List Char)
  | acc, [] => [acc.reverse]
  | acc, c :: rest =>
      if c = sep then acc.reverse :: splitCharList sep [] rest
      else splitCharList sep (c :: acc) rest

/-- Normalize path segments: drop empty and `.` segments, let `..` pop the
previous segment (clamped at the root, as `path.resolve` does). -/
def normSegs : List (List Char) → List (List Char) → List (List Char)
  | acc, [] => acc.reverse
  | acc, seg :: rest =>
      if seg = [] ∨ seg = ['.'] then normSegs acc rest
      else if seg = ['.', '.'] then
        match acc with
        | [] => normSegs [] rest
        | _ :: tl => normSegs tl rest
      else normSegs (seg :: acc) rest

/-- Join segments with `/` separators. -/
def joinSegs : List (List Char) → List Char
  | [] => []
  | [s] => s
  | s :: rest => s ++ '/' :: joinSegs rest

/-- Render normalized segments as an absolute path string. -/
def renderAbs (segs : List (List Char)) : String :=
  String.mk ('/' :: joinSegs segs)

/-- Source: `path.join(a, b)` for an absolute `a` (extension paths are absolute),
including the normalization `path.join` performs. -/
def pathJoin (a b : String) : String :=
  renderAbs (normSegs [] (splitCharList '/' [] a.toList ++ splitCharList '/' [] b.toList))

/-- Source: `path.resolve(p)` for an absolute `p`: normalization only. -/
def pathResolve (p : String) : String :=
  renderAbs (normSegs [] (splitCharList '/' [] p.toList))

/-- JS `s.startsWith(pre)`. -/
def strStartsWith (s pre : String) : Bool :=
  pre.toList.isPrefixOf s.toList

/-- Source: `path.extname(p).toLowerCase()`: the basename's suffix from its last
dot (inclusive), empty when the basename has no dot or only a leading dot. -/
def extnameLower (p : String) : String :=
  let base := ((splitCharList '/' [] p.toList).getLast?).getD []
  match splitCharList '.' [] base with
  | [] => ""
  | [_] => ""
  | first :: rest =>
      if first = [] ∧ rest.length = 1 then ""
      else String.mk ('.' :: (((rest.getLast?).getD []).map Char.toLower))

/- ===== Base64 (Buffer.toString('base64')) ===== -/

def b64Char (n : Nat) : Char :=
  "ABCDEFGHIJKLMNOPQRSTUVWXYZabcdefghijklmnopqrstuvwxyz0123456789+/".toList.getD n 'A'

/-- Standard base64 encoding of a byte list, with `=` padding. -/
def base64Encode : List Nat → String
  | [] => ""
  | [a] =>
      String.mk [b64Char (a % 256 / 4), b64Char (a % 256 % 4 * 16), '=', '=']
  | [a, b] =>
      String.mk [b64Char (a % 256 / 4), b64Char (a % 256 % 4 * 16 + b % 256 / 16),
                 b64Char (b % 256 % 16 * 4), '=']
  | a :: b :: c :: rest =>
      String.mk [b64Char (a % 256 / 4), b64Char (a % 256 % 4 * 16 + b % 256 / 16),
                 b64Char (b % 256 % 16 * 4 + c % 256 / 64), b64Char (c % 256 % 64)]
      ++ base64Encode rest

/- ===== Regular expressions (the subset reachable from testPattern) ===== -/

/-- Regular expressions over characters.  `anyc` is the JS `.` atom. -/
inductive RE : Type
  | emp : RE
  | eps : RE
  | chr : Char → RE
  | anyc : RE
  | alt : RE → RE → RE
  | cat : RE → RE → RE
  | star : RE → RE
deriving DecidableEq, Repr

def RE.nullable : RE → Bool
  | .emp => false
  | .eps => true
  | .chr _ => false
  | .anyc => false
  | .alt r s => r.nullable || s.nullable
  | .cat r s => r.nullable && s.nullable
  | .star _ => true

/-- Simplifying alternation, keeping Brzozowski derivatives small. -/
def mkAlt : RE → RE → RE
  | .emp, s => s
  | r, .emp => r
  | r, s => .alt r s

/-- Simplifying concatenation. -/
def mkCat : RE → RE → RE
  | .emp, _ => .emp
  | _, .emp => .emp
  | .eps, s => s
  | r, .eps => r
  | r, s => .cat r s

def RE.deriv : RE → Char → RE
  | .emp, _ => .emp
  | .eps, _ => .emp
  | .chr c, a => if a = c then .eps else .emp
  | .anyc, _ => .eps
  | .alt r s, a => mkAlt (r.deriv a) (s.deriv a)
  | .cat r s, a =>
      if r.nullable then mkAlt (mkCat (r.deriv a) s) (s.deriv a)
      else mkCat (r.deriv a) s
  | .star r, a => mkCat (r.deriv a) (.star r)

/-- Whole-string match (the anchored `^r$` case of `RegExp.test`). -/
def reMatch (r : RE) (s : List Char) : Bool :=
  (s.foldl RE.deriv r).nullable

/-- Search semantics of `RegExp.test` without anchors: some substring
matches, i.e. the whole string matches `.* r .*`. -/
def reSearch (r : RE) (s : List Char) : Bool :=
  reMatch (mkCat (.star .anyc) (mkCat r (.star .anyc))) s

/-- Parser for the regex-source subset that `testPattern`'s construction can
produce: literal characters, `\c` escapes, `.`, and the postfix quantifiers
`*` and `+`.  Unsupported metacharacters and quantifiers with nothing to
repeat are parse failures, mirroring `new RegExp` throwing (which
`testPattern` catches, returning false).  State: `acc` is the sequence
parsed so far, `last` the trailing atom (with a flag marking it already
quantified, since JS rejects a double quantifier). -/
def parseChars : List Char → RE → Option (RE × Bool) → Option RE
  | [], acc, none => some acc
  | [], acc, some (a, _) => some (mkCat acc a)
  | '\\' :: c :: rest, acc, none => parseChars rest acc (some (.chr c, false))
  | '\\' :: c :: rest, acc, some (a, _) => parseChars rest (mkCat acc a) (some (.chr c, false))
  | ['\\'], _, _ => none
  | '.' :: rest, acc, none => parseChars rest acc (some (.anyc, false))
  | '.' :: rest, acc, some (a, _) => parseChars rest (mkCat acc a) (some (.anyc, false))
  | '*' :: rest, acc, some (a, false) => parseChars rest acc (some (.star a, true))
  | '*' :: _, _, _ => none
  | '+' :: rest, acc, some (a, false) => parseChars rest acc (some (mkCat a (.star a), true))
  | '+' :: _, _, _ => none
  | '?' :: _, _, _ => none
  | '|' :: _, _, _ => none
  | '(' :: _, _, _ => none
  | ')' :: _, _, _ => none
  | '[' :: _, _, _ => none
  | ']' :: _, _, _ => none
  | '^' :: _, _, _ => none
  | '$' :: _, _, _ => none
  | c :: rest, acc, none =>
      if c = '\x7b' ∨ c = '\x7d' then none
      else parseChars rest acc (some (.chr c, false))
  | c :: rest, acc, some (a, _) =>
      if c = '\x7b' ∨ c = '\x7d' then none
      else parseChars rest (mkCat acc a) (some (.chr c, false))

def parseRegex (s : List Char) : Option RE :=
  parseChars s .eps none

/-- One global single-character replacement, as each
`pattern.replace(/x/g, ...)` step performs. -/
def replaceCharBy (c : Char) (rep : List Char) (s : List Char) : List Char :=
  s.flatMap (fun a => if a = c then rep else [a])

/-- The regex source built by `testPattern` (extension-manager.js lines
760-763 and modules/ExtensionManager.js lines 279-282): escape `.`,
then `*` → `.*`, then `?` → `.`, applied sequentially. -/
def buildRegexChars (pattern : List Char) : List Char :=
  replaceCharBy '?' ['.']
    (replaceCharBy '*' ['.', '*']
      (replaceCharBy '.' ['\\', '.'] pattern))

/-- Contiguous-subsequence containment, `pattern.includes('://')`. -/
def containsSeq {α : Type} [BEq α] (needle : List α) : List α → Bool
  | [] => needle.isEmpty
  | a :: rest => needle.isPrefixOf (a :: rest) || containsSeq needle rest

/-- Source: `testPattern(url, pattern)` from the source: build the regex source,
anchor with `^...$` when the pattern contains `://`, and test; a regex the
engine rejects yields false (the `catch` branch). -/
def testPattern (url pattern : String) : Bool :=
  match parseRegex (buildRegexChars pattern.toList) with
  | none => false
  | some r =>
      if containsSeq [':', '/', '/'] pattern.toList then reMatch r url.toList
      else reSearch r url.toList

/-- Regex metacharacters other than `*` and `?`, the set the spec says the
pattern compiler escapes. -/
def specEscapeSet : List Char :=
  ['.', '+', '^', '$', '\x7b', '\x7d', '(', ')', '|', '[', ']', '\\']

/-- The regex source the SPEC describes (URLPatternMatcher, spec section
4.2): escape every regex metacharacter except `*` and `?`, convert
`*` → `.*` and `?` → `.`.  This definition follows the spec's words and is
compared against `buildRegexChars`, which follows the source. -/
def specBuildRegexChars (pattern : List Char) : List Char :=
  pattern.flatMap (fun c =>
    if specEscapeSet.contains c then ['\\', c]
    else if c = '*' then ['.', '*']
    else if c = '?' then ['.']
    else [c])

/-- Source: `test(url, pattern)` as the spec describes it: same anchoring rule and
engine, but on the spec's escaped regex source. -/
def specTestPattern (url pattern : String) : Bool :=
  match parseRegex (specBuildRegexChars pattern.toList) with
  | none => false
  | some r =>
      if containsSeq [':', '/', '/'] pattern.toList then reMatch r url.toList
      else reSearch r url.toList

/-- Characters for which the code's dot-only escaping and the spec's
full-metacharacter escaping coincide. -/
def benignChar (c : Char) : Bool :=
  c.isAlphanum || c = ':' || c = '/' || c = '.' || c = '*' || c = '?'

def benignPattern (p : String) : Bool :=
  p.toList.all benignChar

/-- Source: `matchesUrl(url, patterns)` from the source: true iff some pattern
tests positively. -/
def matchesUrl (url : String) (patterns : List String) : Bool :=
  patterns.any (fun p => testPattern url p)

/- ===== StorageBridge (getStorage / setStorage, lines 80-113) ===== -/

/-- A per-extension store: a flat key→JSON map.  electron-store is an
external dependency; it is modelled as the flat persisted key/value store
the spec's StorageRecord describes (dot-notation nesting not modelled). -/
abbrev Store := List (String × Json)

/-- The map of lazily created stores, `this.extensionStores`. -/
abbrev StoresMap := List (String × Store)

/-- Source: `getExtensionStore`: the extension's store, a fresh empty one when it
was never touched (`defaults: {}`). -/
def getExtensionStore (stores : StoresMap) (extensionId : String) : Store :=
  (assocGet stores extensionId).getD []

/-- The shapes `keys` can take in `getStorage` (string, array, object with
defaults, or absent). -/
inductive StorageKeys : Type
  | all : StorageKeys
  | one (key : String) : StorageKeys
  | many (keys : List String) : StorageKeys
  | withDefaults (entries : List (String × Json)) : StorageKeys
deriving Repr

/-- Source: `getStorage(extensionId, keys)` (lines 92-106): single key returns
`{key: stored ?? null}`, an array maps each key likewise, an object uses
each entry's value as the default, no keys returns the whole store. -/
def getStorage (stores : StoresMap) (extensionId : String) (keys : StorageKeys) : Json :=
  let store := getExtensionStore stores extensionId
  match keys with
  | .all => .obj store
  | .one key => .obj [(key, (assocGet store key).getD .null)]
  | .many ks => .obj (ks.map (fun k => (k, (assocGet store k).getD .null)))
  | .withDefaults entries => .obj (entries.map (fun kv => (kv.1, (assocGet store kv.1).getD kv.2)))

/-- Source: `setStorage(extensionId, items)` (lines 108-113): set each key of
`items` in the extension's store. -/
def setStorage (stores : StoresMap) (extensionId : String) (items : List (String × Json)) : StoresMap :=
  let store := getExtensionStore stores extensionId
  assocSet stores extensionId (items.foldl (fun st kv => assocSet st kv.1 kv.2) store)

/- ===== Disk and external-world model ===== -/

/-- What reading and parsing `manifest.json` yields: the file is missing,
is unparseable JSON, or parses to a value. -/
inductive ManifestRead : Type
  | missing : ManifestRead
  | unparseable : ManifestRead
  | parsed (j : Json) : ManifestRead
deriving Repr

/-- The parts of the outside world `loadExtension` consults: filesystem
reads and the best-effort native (Electron session) extension loader. -/
structure Disk : Type where
  manifestAt : String → ManifestRead
  fileExists : String → Bool
  fileBytes : String → Option (List Nat)
  electronLoad : String → Option String

/- ===== ManifestLoader: id derivation and icon extraction ===== -/

/-- Source: `generateExtensionId(name)` (line 707): lowercase, strip everything but
`a-z0-9` (ASCII case folding; the name strings considered are ASCII). -/
def generateExtensionId (name : String) : String :=
  String.mk ((name.toList.map Char.toLower).filter (fun c => c.isLower || c.isDigit))

/-- Decimal parse of a character list (`Number(key)` for the natural
number keys an icon-size map carries). -/
def parseNatChars (cs : List Char) : Option Nat :=
  if cs ≠ [] ∧ cs.all Char.isDigit then
    some (cs.foldl (fun n c => n * 10 + (c.toNat - 48)) 0)
  else none

/-- Source: `Number(s)` on an icon-size key string. -/
def strToNatLit (s : String) : Option Nat :=
  parseNatChars s.toList

/-- Source: `Object.keys(map).map(Number).sort((a,b)=>b-a)[0]` followed by the
`if (largestSize)` truthiness guard and the map lookup: the entry under the
numerically largest positive key, none when there is no such key.  Keys are
taken in canonical decimal form (the `map[largestSize]` lookup is the entry
whose key denotes that number). -/
def largestIconEntry (fields : List (String × Json)) : Option Json :=
  match (fields.filterMap (fun kv => strToNatLit kv.1)).foldl max 0 with
  | 0 => none
  | n + 1 =>
      (fields.find? (fun kv => strToNatLit kv.1 == some (n + 1))).map (fun kv => kv.2)

/-- A `default_icon` value: a direct string or a size→path map picking the
largest key (lines 448-457 and 459-468). -/
def iconFromInfo : Json → Option Json
  | .str s => some (.str s)
  | .obj fields => largestIconEntry fields
  | _ => none

/-- The shared tail of `getExtensionIcon` (lines 471-487): join the
relative path, and when the file exists and is readable return the
mime-typed base64 data URI; otherwise no icon (never fatal). -/
def readIconAsDataUri (extensionPath rel : String) (disk : Disk) : Option String :=
  let iconPath := pathJoin extensionPath rel
  if disk.fileExists iconPath then
    match disk.fileBytes iconPath with
    | some bytes =>
        let ext := extnameLower iconPath
        let mimeType :=
          if ext = ".png" then "image/png"
          else if ext = ".jpg" ∨ ext = ".jpeg" then "image/jpeg"
          else if ext = ".svg" then "image/svg+xml"
          else "image/png"
        some ("data:" ++ mimeType ++ ";base64," ++ base64Encode bytes)
    | none => none
  else none

/-- Source: `getExtensionIcon(extensionPath, manifest)` (lines 438-488), source
order: the `icons` map first, else `browser_action.default_icon`, else
`action.default_icon`; then read the selected file.  A truthy non-object
`icons` value is out of the modelled manifest shapes. -/
def getExtensionIcon (extensionPath : String) (manifest : Json) (disk : Disk) : Option String :=
  let iconRel : Option Json :=
    if jsTruthy (jsGet manifest "icons") then
      match jsGet manifest "icons" with
      | some (.obj fields) => largestIconEntry fields
      | _ => none
    else if jsTruthy (jsGetOpt (jsGet manifest "browser_action") "default_icon") then
      (jsGetOpt (jsGet manifest "browser_action") "default_icon").bind iconFromInfo
    else if jsTruthy (jsGetOpt (jsGet manifest "action") "default_icon") then
      (jsGetOpt (jsGet manifest "action") "default_icon").bind iconFromInfo
    else none
  match iconRel with
  | some (.str rel) =>
      if rel = "" then none else readIconAsDataUri extensionPath rel disk
  | _ => none

/-- Icon extraction as the SPEC words it (section 4.1): priority `icons`
map, then `action.default_icon`, then `browser_action.default_icon`.  This
definition follows the spec's words and is compared against
`getExtensionIcon`, which follows the source. -/
def specGetExtensionIcon (extensionPath : String) (manifest : Json) (disk : Disk) : Option String :=
  let iconRel : Option Json :=
    if jsTruthy (jsGet manifest "icons") then
      match jsGet manifest "icons" with
      | some (.obj fields) => largestIconEntry fields
      | _ => none
    else if jsTruthy (jsGetOpt (jsGet manifest "action") "default_icon") then
      (jsGetOpt (jsGet manifest "action") "default_icon").bind iconFromInfo
    else if jsTruthy (jsGetOpt (jsGet manifest "browser_action") "default_icon") then
      (jsGetOpt (jsGet manifest "browser_action") "default_icon").bind iconFromInfo
    else none
  match iconRel with
  | some (.str rel) =>
      if rel = "" then none else readIconAsDataUri extensionPath rel disk
  | _ => none

/- ===== ExtensionRegistry: state, loadExtension, unloadExtension ===== -/

/-- The extension record `loadExtension` builds (lines 398-409);
`loadedAt` is informational only and not modelled. -/
structure ExtValue : Type where
  id : String
  name : Json
  version : Json
  description : Json
  path : String
  manifest : Json
  enabled : Bool
  icon : Option String
  popup : Option Json
  electronId : Option String
deriving Repr

/-- One entry of the persisted `extensions.json` snapshot (lines 62-71). -/
structure ConfigEntry : Type where
  id : String
  name : Json
  version : Json
  path : String
  enabled : Bool
deriving Repr

/-- The ExtensionManager's mutable state: the five owned collections plus
the persisted configuration file's content and a count of writes to it. -/
structure EMState : Type where
  extensions : List (String × ExtValue)
  loadedExtensions : List String
  popupWindows : List (String × Nat)
  extensionStores : StoresMap
  registeredProtocols : List String
  savedConfig : Option (List ConfigEntry)
  configWriteCount : Nat

/-- Source: `saveConfiguration()` (lines 60-78): snapshot every loaded extension
and rewrite the config file. -/
def saveConfiguration (st : EMState) : EMState :=
  { st with
      savedConfig := some (st.extensions.map (fun kv =>
        { id := kv.2.id, name := kv.2.name, version := kv.2.version,
          path := kv.2.path, enabled := kv.2.enabled })),
      configWriteCount := st.configWriteCount + 1 }

/-- Source: `unloadExtension(extensionId)` (lines 651-696): when the id is
registered, close and drop any popup, drop the native-loader registration
(external), unregister the protocol, drop the storage handle, remove the
extension, and re-persist; otherwise do nothing at all. -/
def unloadExtension (st : EMState) (extensionId : String) : EMState :=
  match assocGet st.extensions extensionId with
  | none => st
  | some ext =>
      let st := { st with popupWindows := assocErase st.popupWindows extensionId }
      let scheme := "chrome-extension-" ++ ext.id
      let st := { st with registeredProtocols := st.registeredProtocols.filter (· ≠ scheme) }
      let st := { st with extensionStores := assocErase st.extensionStores extensionId }
      let st := { st with
        extensions := assocErase st.extensions extensionId,
        loadedExtensions := st.loadedExtensions.filter (· ≠ extensionId) }
      saveConfiguration st

/-- Source: `setupExtensionProtocol(extension)` (lines 490-533): re-register the
per-extension scheme and record it in the registered set. -/
def setupExtensionProtocol (st : EMState) (ext : ExtValue) : EMState :=
  let scheme := "chrome-extension-" ++ ext.id
  if st.registeredProtocols.contains scheme then st
  else { st with registeredProtocols := scheme :: st.registeredProtocols }

/-- The failures `loadExtension` can throw (spec section 7 taxonomy);
`typeFault` covers a truthy non-string manifest name, where
`name.toLowerCase()` throws a TypeError. -/
inductive LoadError : Type
  | manifestMissing : LoadError
  | manifestInvalid : LoadError
  | manifestIncomplete : LoadError
  | typeFault : LoadError
deriving DecidableEq, Repr

/-- Source: `loadExtension(extensionPath)` (lines 363-436), state-passing: read and
parse the manifest (errors before any mutation), derive the id, fully
unload a colliding extension, build the record, best-effort native load,
register, set up the protocol, persist. -/
def loadExtension (st : EMState) (disk : Disk) (extensionPath : String) :
    EMState × Except LoadError ExtValue :=
  match disk.manifestAt (pathJoin extensionPath "manifest.json") with
  | .missing => (st, .error .manifestMissing)
  | .unparseable => (st, .error .manifestInvalid)
  | .parsed manifest =>
      if ¬ jsTruthy (jsGet manifest "name") ∨ ¬ jsTruthy (jsGet manifest "version") then
        (st, .error .manifestIncomplete)
      else
        match jsGet manifest "name" with
        | some (.str nameStr) =>
            let extensionId := generateExtensionId nameStr
            let st := if assocHas st.extensions extensionId
                      then unloadExtension st extensionId else st
            let ext : ExtValue :=
              { id := extensionId,
                name := .str nameStr,
                version := (jsGet manifest "version").getD .null,
                description := (jsOr (jsGet manifest "description") (some (.str ""))).getD .null,
                path := extensionPath,
                manifest := manifest,
                enabled := true,
                icon := getExtensionIcon extensionPath manifest disk,
                popup := jsOr (jsGetOpt (jsGet manifest "browser_action") "default_popup")
                              (jsGetOpt (jsGet manifest "action") "default_popup"),
                electronId := disk.electronLoad extensionPath }
            let st := { st with
              extensions := assocSet st.extensions ext.id ext,
              loadedExtensions :=
                if st.loadedExtensions.contains ext.id then st.loadedExtensions
                else st.loadedExtensions ++ [ext.id] }
            let st := setupExtensionProtocol st ext
            (saveConfiguration st, .ok ext)
        | _ => (st, .error .typeFault)

/- ===== ProtocolBridge file resolver (setupExtensionProtocol handler) ===== -/

/-- The resolver's outcome: a served file path or the `-6` FILE_NOT_FOUND
response. -/
inductive ProtoResult : Type
  | file (path : String) : ProtoResult
  | notFound : ProtoResult
deriving DecidableEq, Repr

/-- The `registerFileProtocol` callback (lines 502-522): join the requested
path onto the extension directory, canonicalize, reject when the resolved
path does not START WITH the extension directory string, then serve the
file when it exists. -/
def resolveExtensionFile (extensionPath requestPath : String)
    (diskHas : String → Bool) : ProtoResult :=
  let filePath := pathJoin extensionPath requestPath
  let resolvedPath := pathResolve filePath
  let extensionDir := pathResolve extensionPath
  if ¬ strStartsWith resolvedPath extensionDir then .notFound
  else if diskHas resolvedPath then .file resolvedPath
  else .notFound

/-- Being genuinely inside a directory: the directory itself, or below it
past a path separator. -/
def insideDir (p dir : String) : Bool :=
  p = dir || strStartsWith p (dir ++ "/")

/- ===== PopupLifecycleManager: session map under window-close events ===== -/

/-- Popup bookkeeping: `popupWindows` is the session map keyed by extension
id; `createdBy` records each created window's owning extension; `closing`
holds windows whose `close()` was requested but whose `closed` event is
still pending; `destroyedWins` the destroyed ones. -/
structure PopupModelState : Type where
  nextWin : Nat
  popupWindows : List (String × Nat)
  createdBy : List (Nat × String)
  closing : List Nat
  destroyedWins : List Nat
deriving Repr

def initialPopupState : PopupModelState :=
  { nextWin := 0, popupWindows := [], createdBy := [], closing := [], destroyedWins := [] }

/-- The synchronous body of `showExtensionPopup` for an extension with a
popup whose file exists (lines 560-571 then 580-643): request close of any
existing window and delete its map entry, create the new window, register
its `closed` handler, insert it into the session map.  Window destruction
is asynchronous: the closed window only dies when its `closed` event is
delivered (`deliverClosed`). -/
def showPopupSync (st : PopupModelState) (extensionId : String) : PopupModelState :=
  let st :=
    match assocGet st.popupWindows extensionId with
    | some w =>
        { st with
            closing := if st.destroyedWins.contains w then st.closing else w :: st.closing,
            popupWindows := assocErase st.popupWindows extensionId }
    | none => st
  { st with
      createdBy := st.createdBy ++ [(st.nextWin, extensionId)],
      popupWindows := assocSet st.popupWindows extensionId st.nextWin,
      nextWin := st.nextWin + 1 }

/-- Delivery of a pending `closed` event for window `w`: the window is
destroyed and its handler (line 640) runs
`this.popupWindows.delete(extensionId)` — unconditionally, by extension id,
whatever window that entry currently holds. -/
def deliverClosed (st : PopupModelState) (w : Nat) : PopupModelState :=
  if st.closing.contains w then
    match assocGet st.createdBy w with
    | some extensionId =>
        { st with
            destroyedWins := w :: st.destroyedWins,
            closing := st.closing.filter (· ≠ w),
            popupWindows := assocErase st.popupWindows extensionId }
    | none => st
  else st

/-- Windows created for an extension and not destroyed: its live popup
windows. -/
def liveWindowsFor (st : PopupModelState) (extensionId : String) : Nat :=
  (st.createdBy.filter (fun p => p.2 = extensionId ∧ ¬ st.destroyedWins.contains p.1)).length

/- ===== Popup init-data handshake (C1): effects and IPC channels ===== -/

/-- The primitive effects `showExtensionPopup` performs, in source order.
The vocabulary includes `registerInitDataCacheEntry` so that its absence
from the function's trace is statable. -/
inductive PopupEffect : Type
  | checkPopupDefined : PopupEffect
  | deriveCurrentUrl : PopupEffect
  | closeExistingWindow : PopupEffect
  | deleteExistingSession : PopupEffect
  | checkPopupFile : PopupEffect
  | createWindow : PopupEffect
  | registerDomReadyApiInjection : PopupEffect
  | registerInitDataCacheEntry : PopupEffect
  | loadPopupUrl : PopupEffect
  | scheduleResizeAndShow : PopupEffect
  | registerClosedHandler : PopupEffect
  | insertSession : PopupEffect
deriving DecidableEq, Repr

/-- The effect trace of a `showExtensionPopup` call that proceeds to open a
popup window, read off lines 535-644 in order; `hasExistingPopup` selects
the optional teardown branch (lines 560-571). -/
def showExtensionPopupEffects (hasExistingPopup : Bool) : List PopupEffect :=
  [.checkPopupDefined, .deriveCurrentUrl]
  ++ (if hasExistingPopup then [.closeExistingWindow, .deleteExistingSession] else [])
  ++ [.checkPopupFile, .createWindow, .registerDomReadyApiInjection, .loadPopupUrl,
      .scheduleResizeAndShow, .registerClosedHandler, .insertSession]

/-- Every channel the main process registers an `ipcMain.on` listener for
(main.js lines 348, 786, 791, 802) — the listeners a renderer's
`ipcRenderer.sendSync` can reach. -/
def mainProcessOnChannels : List String :=
  ["get-popup-extension-data", "minimize-window", "maximize-window", "close-window"]

/-- Every channel the main process registers an `ipcMain.handle` handler
for (main.js setupIPC, lines 367-780) — reachable by `invoke`, not by
`sendSync`. -/
def mainProcessHandleChannels : List String :=
  ["webview-key-event", "register-webview-key-handler", "get-webview-key-history",
   "window-minimize", "window-maximize", "window-close", "close-tab", "navigate-tab",
   "get-history", "add-history", "get-bookmarks", "add-bookmark", "load-extension",
   "get-extensions", "show-extension-popup", "get-extension-file-content",
   "extension-storage-get", "extension-storage-set", "get-extension-api-script",
   "webview-permission"]

/-- The channel the popup preload requests synchronously at the very start
of script execution (src/unnamed/part_005 line 13). -/
def popupPreloadInitChannel : String := "get-popup-init-data"

/-- Whether a `sendSync` on a channel reaches any listener in the main
process. -/
def sendSyncHasListener (channel : String) : Bool :=
  mainProcessOnChannels.contains channel

/- ===== InjectionPipeline (injectContentScripts, both versions) ===== -/

/-- One `content_scripts` block of a manifest; `css`/`js` are `none` when
the manifest omits the field (the JS `if (script.css)` guard).  The
manifest field `matches` is a reserved word here, hence `matchPatterns`. -/
structure ContentScript : Type where
  matchPatterns : List String
  css : Option (List String)
  js : Option (List String)
deriving Repr

/-- What the injection pipeline needs to know about a loaded extension. -/
structure InjExtension : Type where
  id : String
  enabled : Bool
  electronId : Option String
  contentScripts : List ContentScript
deriving Repr

/-- An attempted injection into the page, in pipeline order. -/
inductive InjEvent : Type
  | cssInj (extId file : String) : InjEvent
  | apiInj (extId : String) : InjEvent
  | jsInj (extId file : String) : InjEvent
deriving DecidableEq, Repr

/-- The injections one content-script block contributes when its patterns
match: its CSS files, then — when `js` is declared — the API-synthesizer
script followed by each JS file (extension-manager.js lines 718-743,
modules/ExtensionManager.js lines 315-377). -/
def blockEvents (extId url : String) (s : ContentScript) : List InjEvent :=
  if matchesUrl url s.matchPatterns then
    (match s.css with
     | some files => files.map (InjEvent.cssInj extId)
     | none => [])
    ++ (match s.js with
        | some files => InjEvent.apiInj extId :: files.map (InjEvent.jsInj extId)
        | none => [])
  else []

/-- One extension's contribution in the MAIN-process pipeline
(extension-manager.js lines 712-744): skipped entirely when it holds a
native-loader handle or is disabled. -/
def extEventsMain (url : String) (e : InjExtension) : List InjEvent :=
  if e.electronId.isSome then []
  else if ¬ e.enabled then []
  else (e.contentScripts.map (blockEvents e.id url)).flatten

/-- Source: `injectContentScripts(webview, url)` in the main-process version:
registry iteration order, each extension's blocks in manifest order. -/
def injectContentScriptsMain (exts : List InjExtension) (url : String) : List InjEvent :=
  (exts.map (extEventsMain url)).flatten

/-- One extension's contribution in the RENDERER pipeline
(modules/ExtensionManager.js lines 310-379): only disabled extensions are
skipped — there is no native-loader-handle check. -/
def extEventsRenderer (url : String) (e : InjExtension) : List InjEvent :=
  if ¬ e.enabled then []
  else (e.contentScripts.map (blockEvents e.id url)).flatten

/-- Source: `injectContentScripts(webview, url)` in the renderer version. -/
def injectContentScriptsRenderer (exts : List InjExtension) (url : String) : List InjEvent :=
  (exts.map (extEventsRenderer url)).flatten

/-- Scans an injection trace for extension `extId`: false iff a JS-file
injection for it occurs before any API-synthesizer injection for it. -/
def noJsBeforeApi (extId : String) : List InjEvent → Bool
  | [] => true
  | .jsInj i _ :: rest => if i = extId then false else noJsBeforeApi extId rest
  | .apiInj i :: rest => if i = extId then true else noJsBeforeApi extId rest
  | .cssInj _ _ :: rest => noJsBeforeApi extId rest

/- ===== Registry accessors and aliasing (C8) ===== -/

/-- A mutable extension object's observable fields, for the aliasing
model. -/
structure ExtObj : Type where
  name : String
  enabled : Bool
deriving DecidableEq, Repr

/-- The registry with object identity made explicit: `extRefs` maps ids to
heap references; the objects live in `heap`. -/
structure RegistryHeap : Type where
  heap : List (Nat × ExtObj)
  extRefs : List (String × Nat)
deriving Repr

/-- Source: `getExtension(extensionId)` (line 702-704): hands back the registry's
own reference, no copy. -/
def getExtensionRef (st : RegistryHeap) (extensionId : String) : Option Nat :=
  assocGet st.extRefs extensionId

/-- Source: `getExtensions()` (line 698-700): `Array.from(this.extensions.values())`
— a fresh array whose elements are the registry's own references. -/
def getExtensionsRefs (st : RegistryHeap) : List Nat :=
  st.extRefs.map (fun kv => kv.2)

/-- Reading an extension object through a reference. -/
def derefExt (st : RegistryHeap) (r : Nat) : Option ExtObj :=
  assocGet st.heap r

/-- A caller mutating the object behind a reference it was handed. -/
def mutateExt (st : RegistryHeap) (r : Nat) (o : ExtObj) : RegistryHeap :=
  { st with heap := assocSet st.heap r o }

/-- What a later `getExtension(id)` observes: the object behind the
registry's reference. -/
def readExtension (st : RegistryHeap) (extensionId : String) : Option ExtObj :=
  (getExtensionRef st extensionId).bind (derefExt st)

/- ===== Concrete inputs used by witnesses and counterexamples ===== -/

/-- A fresh ExtensionManager state: all collections empty, nothing
persisted yet. -/
def emptyEM : EMState :=
  { extensions := [], loadedExtensions := [], popupWindows := [], extensionStores := [],
    registeredProtocols := [], savedConfig := none, configWriteCount := 0 }

/-- A disk whose only manifest, at `/x/manifest.json`, parses but lacks a
`name` field. -/
def inclDisk : Disk :=
  { manifestAt := fun p =>
      if p == "/x/manifest.json" then .parsed (.obj [("version", .str "1.0")])
      else .missing,
    fileExists := fun _ => false,
    fileBytes := fun _ => none,
    electronLoad := fun _ => none }

/-- A manifest declaring distinct `action` and `browser_action` default
icons and no `icons` map. -/
def bothActionsManifest : Json :=
  .obj [("action", .obj [("default_icon", .str "a.png")]),
        ("browser_action", .obj [("default_icon", .str "b.png")])]

/-- A disk holding the two icon files with distinguishable bytes. -/
def twoIconDisk : Disk :=
  { manifestAt := fun _ => .missing,
    fileExists := fun p => p == "/e/a.png" || p == "/e/b.png",
    fileBytes := fun p =>
      if p == "/e/a.png" then some [1]
      else if p == "/e/b.png" then some [2]
      else none,
    electronLoad := fun _ => none }

/-- An enabled, manually loaded extension with two content-script blocks
that both match `https://example.com/x` and both declare JS files. -/
def twoBlockExt : InjExtension :=
  { id := "e1", enabled := true, electronId := none,
    contentScripts :=
      [{ matchPatterns := ["*://example.com/*"], css := none, js := some ["a.js"] },
       { matchPatterns := ["*://example.com/*"], css := none, js := some ["b.js"] }] }

/-- An enabled extension holding a native-loader handle, with a matching
block declaring CSS and JS. -/
def nativeExt : InjExtension :=
  { id := "f1", enabled := true, electronId := some "native",
    contentScripts :=
      [{ matchPatterns := ["*://example.com/*"], css := some ["s.css"], js := some ["c.js"] }] }

/-- A registry heap holding one extension object at reference 0. -/
def oneExtHeap : RegistryHeap :=
  { heap := [(0, { name := "orig", enabled := true })], extRefs := [("x", 0)] }

/- ===== Shared helper lemmas ===== -/

/-- Looking up the key just set yields the new value. -/
theorem assocGet_assocSet_self {κ α : Type} [DecidableEq κ]
    (l : List (κ × α)) (k : κ) (v : α) : assocGet (assocSet l k v) k = some v := by
  induction l with
  | nil => simp [assocGet, assocSet]
  | cons hd tl ih =>
      by_cases h : hd.1 = k
      · simp [assocGet, assocSet, h]
      · simp [assocGet, assocSet, h, ih]

/-- Setting one key leaves every other key's lookup unchanged. -/
theorem assocGet_assocSet_ne {κ α : Type} [DecidableEq κ]
    (l : List (κ × α)) (k k' : κ) (v : α) (h : k' ≠ k) :
    assocGet (assocSet l k v) k' = assocGet l k' := by
  induction l with
  | nil => simp [assocGet, assocSet, Ne.symm h]
  | cons hd tl ih =>
      by_cases hk : hd.1 = k
      · subst hk
        simp [assocGet, assocSet, Ne.symm h]
      · simp [assocGet, assocSet, hk, ih]

/- ===== Claim theorems ===== -/

/-- Claim C1 (code_bug evidence).  No call to `showExtensionPopup` ever
registers an init-data cache entry: the effect trace of a popup-opening
call — whether or not an existing popup was torn down first — contains no
init-data registration, and the `get-popup-init-data` channel the popup
preload queries synchronously has no listener in the main process (neither
among the `ipcMain.on` listeners reachable by `sendSync` nor even among the
`ipcMain.handle` handlers), so the preload's request cannot return the
extension's manifest and current tab URL. -/
theorem c1_popup_init_data_never_registered :
    sendSyncHasListener popupPreloadInitChannel = false
    ∧ ((showExtensionPopupEffects true).contains PopupEffect.registerInitDataCacheEntry = false
       ∧ (showExtensionPopupEffects false).contains PopupEffect.registerInitDataCacheEntry = false)
    ∧ mainProcessHandleChannels.contains popupPreloadInitChannel = false := by
  decide

/-- Claim C2 (code_bug evidence).  Opening a popup for extension `a`,
reopening it before the first window's `closed` event is delivered, then
delivering that event: the old window's close handler deletes the session
map entry by extension id, evicting the live second window (session map
empty while one window is live), so a further `showExtensionPopup` call
finds no session to tear down and opens another window — two live popup
windows for the same extension. -/
theorem c2_stale_closed_handler_breaks_single_session :
    (deliverClosed (showPopupSync (showPopupSync initialPopupState "a") "a") 0).popupWindows = []
    ∧ liveWindowsFor (deliverClosed (showPopupSync (showPopupSync initialPopupState "a") "a") 0) "a" = 1
    ∧ liveWindowsFor
        (showPopupSync (deliverClosed (showPopupSync (showPopupSync initialPopupState "a") "a") 0) "a")
        "a" = 2 := by
  decide

/-- Claim C3 (code_bug evidence).  The `startsWith` containment check
admits sibling directories sharing a name prefix: from extension directory
`/ext/app`, the request `../app2/secret` resolves to `/ext/app2/secret`,
which starts with the string `/ext/app` yet lies outside the extension
directory — and the resolver serves it.  (The spec's own
`../../etc/passwd` vector is correctly rejected.) -/
theorem c3_resolver_serves_outside_extension_dir :
    resolveExtensionFile "/ext/app" "../app2/secret" (fun p => p == "/ext/app2/secret")
      = ProtoResult.file "/ext/app2/secret"
    ∧ insideDir "/ext/app2/secret" "/ext/app" = false
    ∧ resolveExtensionFile "/ext/app" "../../etc/passwd" (fun _ => true) = ProtoResult.notFound := by
  decide

/-- Claim C5.  A manifest that is present and parseable but whose `name` or
`version` is missing (or otherwise falsy) makes `loadExtension` fail with
the ManifestIncomplete error, and the state — registry, loaded set, popup
map, stores, protocol set, persisted configuration — is returned exactly
unchanged: validation precedes every mutation. -/
theorem c5_incomplete_manifest_rejected_without_mutation
    (st : EMState) (disk : Disk) (extensionPath : String) (j : Json)
    (hread : disk.manifestAt (pathJoin extensionPath "manifest.json") = ManifestRead.parsed j)
    (hmiss : jsTruthy (jsGet j "name") = false ∨ jsTruthy (jsGet j "version") = false) :
    loadExtension st disk extensionPath = (st, Except.error LoadError.manifestIncomplete) := by
  unfold loadExtension
  rw [hread]
  rcases hmiss with h | h <;> simp [h]

/-- Witness for C5: the concrete disk whose `/x/manifest.json` parses to
`{"version": "1.0"}` (no name) leaves the empty state untouched and
reports ManifestIncomplete. -/
theorem c5_witness :
    loadExtension emptyEM inclDisk "/x" = (emptyEM, Except.error LoadError.manifestIncomplete) :=
  c5_incomplete_manifest_rejected_without_mutation emptyEM inclDisk "/x"
    (Json.obj [("version", Json.str "1.0")]) rfl (Or.inl rfl)

/-- Claim C10.  Calling `unloadExtension` with an id not present in the
registry is a silent no-op: the whole state — registry map, popup-window
map, protocol set, storage-handle map, persisted configuration and its
write count — is returned unchanged. -/
theorem c10_unload_unknown_id_noop
    (st : EMState) (extensionId : String)
    (h : assocGet st.extensions extensionId = none) :
    unloadExtension st extensionId = st := by
  unfold unloadExtension
  rw [h]

/-- Witness for C10: unloading an id from the fresh empty state changes
nothing. -/
theorem c10_witness : unloadExtension emptyEM "ghost" = emptyEM :=
  c10_unload_unknown_id_noop emptyEM "ghost" rfl

/-- Claim C9.  Storage round trip: setting `{k: v}` then getting `k`
returns `{k: v}`; a set of one key leaves every other key's read result
unchanged (merge, no disturbance); and getting a key never set returns
`{k: null}`. -/
theorem c9_storage_get_set_semantics :
    (∀ (stores : StoresMap) (extensionId k : String) (v : Json),
        getStorage (setStorage stores extensionId [(k, v)]) extensionId (StorageKeys.one k)
          = Json.obj [(k, v)])
    ∧ (∀ (stores : StoresMap) (extensionId k k' : String) (v : Json), k' ≠ k →
        getStorage (setStorage stores extensionId [(k, v)]) extensionId (StorageKeys.one k')
          = getStorage stores extensionId (StorageKeys.one k'))
    ∧ (∀ (extensionId k : String),
        getStorage [] extensionId (StorageKeys.one k) = Json.obj [(k, Json.null)]) := by
  refine ⟨?_, ?_, ?_⟩
  · intro stores extensionId k v
    simp [getStorage, setStorage, getExtensionStore,
          assocGet_assocSet_self, List.foldl]
  · intro stores extensionId k k' v h
    simp [getStorage, setStorage, getExtensionStore, List.foldl,
          assocGet_assocSet_self, assocGet_assocSet_ne _ _ _ _ h]
  · intro extensionId k
    simp [getStorage, getExtensionStore, assocGet]

/-- Witness for C9: concrete round trip, non-disturbance and absent-key
default on the empty store map. -/
theorem c9_witness :
    getStorage (setStorage [] "e" [("a", Json.num 1)]) "e" (StorageKeys.one "a")
      = Json.obj [("a", Json.num 1)]
    ∧ getStorage (setStorage [] "e" [("a", Json.num 1)]) "e" (StorageKeys.one "b")
      = getStorage [] "e" (StorageKeys.one "b")
    ∧ getStorage [] "e" (StorageKeys.one "missing") = Json.obj [("missing", Json.null)] :=
  ⟨c9_storage_get_set_semantics.1 [] "e" "a" (Json.num 1),
   c9_storage_get_set_semantics.2.1 [] "e" "a" "b" (Json.num 1) (by decide),
   c9_storage_get_set_semantics.2.2 "e" "missing"⟩

/-- Claim C8 counterexample.  `getExtension` hands back the registry's own
object reference: mutating the object behind the returned reference changes
what a subsequent `getExtension` call observes — the accessors do NOT
return defensive copies. -/
theorem c8_counterexample :
    getExtensionRef oneExtHeap "x" = some 0
    ∧ readExtension (mutateExt oneExtHeap 0 { name := "hacked", enabled := false }) "x"
        = some { name := "hacked", enabled := false }
    ∧ readExtension oneExtHeap "x" = some { name := "orig", enabled := true }
    ∧ ({ name := "hacked", enabled := false } : ExtObj) ≠ { name := "orig", enabled := true } := by
  decide

/-- Claim C8 as amended.  The accessors return the registry's live
references: (i) mutating the object behind a reference obtained from
`getExtension` is visible to every subsequent accessor call; (ii) the
mutation does not touch the id-to-reference map itself, and `getExtensions`
returns a fresh array of those same references (so reshaping the returned
array cannot affect the registry, while mutating its elements can). -/
theorem c8_accessors_alias_registry :
    (∀ (st : RegistryHeap) (extensionId : String) (r : Nat) (o : ExtObj),
        getExtensionRef st extensionId = some r →
        readExtension (mutateExt st r o) extensionId = some o)
    ∧ (∀ (st : RegistryHeap) (r : Nat) (o : ExtObj),
        (mutateExt st r o).extRefs = st.extRefs
        ∧ getExtensionsRefs (mutateExt st r o) = getExtensionsRefs st) := by
  constructor
  · intro st extensionId r o h
    simp [readExtension, getExtensionRef, mutateExt, derefExt] at h ⊢
    simp [h, assocGet_assocSet_self]
  · intro st r o
    exact ⟨rfl, rfl⟩

/-- Witness for C8's amended theorem: the concrete one-extension heap. -/
theorem c8_amended_witness :
    readExtension (mutateExt oneExtHeap 0 { name := "hacked", enabled := false }) "x"
      = some { name := "hacked", enabled := false } :=
  c8_accessors_alias_registry.1 oneExtHeap "x" 0 { name := "hacked", enabled := false } (by decide)

/-- Claim C6 counterexample.  A manifest with no `icons` map but with BOTH
`action.default_icon` (`a.png`, bytes `[1]`) and `browser_action.default_icon`
(`b.png`, bytes `[2]`): the source picks `browser_action` (data URI of
`b.png`), while the claimed priority (action before browser_action) picks
`a.png` — the claimed selection order is not the code's. -/
theorem c6_counterexample :
    getExtensionIcon "/e" bothActionsManifest twoIconDisk
      = some "data:image/png;base64,Ag=="
    ∧ specGetExtensionIcon "/e" bothActionsManifest twoIconDisk
      = some "data:image/png;base64,AQ==" := by
  constructor <;> rfl

/-- Claim C6 as amended.  Icon extraction selects the `icons` map first
(largest numeric size key), then `browser_action.default_icon`, then
`action.default_icon`; the data URI's mime type comes from the file
extension (`.svg` → image/svg+xml, anything unrecognized → image/png); a
missing or unreadable file yields no icon rather than a failure.
Conjuncts: (i) with no `icons` map, `browser_action` wins over `action`;
(ii) an `icons` map uses the largest size key regardless of other fields;
(iii) `.svg` resolves to the svg mime type; (iv) a missing file and (v) an
unreadable file both yield `none`. -/
theorem c6_icon_priority_and_mime :
    (∀ (extensionPath ba act : String) (disk : Disk), ba ≠ "" →
        getExtensionIcon extensionPath
          (Json.obj [("action", Json.obj [("default_icon", Json.str act)]),
                     ("browser_action", Json.obj [("default_icon", Json.str ba)])]) disk
          = readIconAsDataUri extensionPath ba disk)
    ∧ (∀ (extensionPath p16 p48 : String) (disk : Disk), p48 ≠ "" →
        getExtensionIcon extensionPath
          (Json.obj [("icons", Json.obj [("16", Json.str p16), ("48", Json.str p48)])]) disk
          = readIconAsDataUri extensionPath p48 disk)
    ∧ (∀ (extensionPath rel : String) (disk : Disk) (bytes : List Nat),
        disk.fileExists (pathJoin extensionPath rel) = true →
        disk.fileBytes (pathJoin extensionPath rel) = some bytes →
        extnameLower (pathJoin extensionPath rel) = ".svg" →
        readIconAsDataUri extensionPath rel disk
          = some ("data:image/svg+xml;base64," ++ base64Encode bytes))
    ∧ (∀ (extensionPath rel : String) (disk : Disk),
        disk.fileExists (pathJoin extensionPath rel) = false →
        readIconAsDataUri extensionPath rel disk = none)
    ∧ (∀ (extensionPath rel : String) (disk : Disk),
        disk.fileExists (pathJoin extensionPath rel) = true →
        disk.fileBytes (pathJoin extensionPath rel) = none →
        readIconAsDataUri extensionPath rel disk = none) := by
  refine ⟨?_, ?_, ?_, ?_, ?_⟩
  · intro extensionPath ba act disk h
    simp [getExtensionIcon, jsGet, assocGet, jsGetOpt, jsTruthy, iconFromInfo, h]
  · intro extensionPath p16 p48 disk h
    have hsel : largestIconEntry [("16", Json.str p16), ("48", Json.str p48)]
        = some (Json.str p48) := rfl
    simp [getExtensionIcon, jsGet, assocGet, jsTruthy, hsel, h]
  · intro extensionPath rel disk bytes h1 h2 h3
    simp [readIconAsDataUri, h1, h2, h3]
  · intro extensionPath rel disk h1
    simp [readIconAsDataUri, h1]
  · intro extensionPath rel disk h1 h2
    simp [readIconAsDataUri, h1, h2]

/-- Witness for C6's amended theorem: the concrete two-icon disk, where the
no-`icons` manifest resolves through `browser_action` to `b.png`. -/
theorem c6_amended_witness :
    getExtensionIcon "/e" bothActionsManifest twoIconDisk
      = readIconAsDataUri "/e" "b.png" twoIconDisk :=
  c6_icon_priority_and_mime.1 "/e" "b.png" "a.png" twoIconDisk (by decide)

/-- No API-synthesizer event hides among mapped CSS events. -/
theorem count_api_in_cssMap (files : List String) (i j : String) :
    (files.map (InjEvent.cssInj i)).count (InjEvent.apiInj j) = 0 := by
  induction files with
  | nil => rfl
  | cons f fs ih => simpa [List.count_cons] using ih

/-- No API-synthesizer event hides among mapped JS events. -/
theorem count_api_in_jsMap (files : List String) (i j : String) :
    (files.map (InjEvent.jsInj i)).count (InjEvent.apiInj j) = 0 := by
  induction files with
  | nil => rfl
  | cons f fs ih => simpa [List.count_cons] using ih

/-- A block contributes exactly one API-synthesizer injection when it
matches and declares JS, none otherwise. -/
theorem count_api_blockEvents (extId url : String) (s : ContentScript) :
    (blockEvents extId url s).count (InjEvent.apiInj extId)
      = if matchesUrl url s.matchPatterns && s.js.isSome then 1 else 0 := by
  unfold blockEvents
  by_cases hm : matchesUrl url s.matchPatterns
  · cases hcss : s.css <;> cases hjs : s.js <;>
      simp [hm, hcss, hjs, List.count_append, List.count_cons,
            count_api_in_cssMap, count_api_in_jsMap]
  · simp [hm]

/-- Concatenation preserves the api-before-js scan when both halves
satisfy it. -/
theorem noJsBeforeApi_append (extId : String) (xs ys : List InjEvent)
    (hx : noJsBeforeApi extId xs = true) (hy : noJsBeforeApi extId ys = true) :
    noJsBeforeApi extId (xs ++ ys) = true := by
  induction xs with
  | nil => simpa using hy
  | cons e rest ih =>
      cases e with
      | cssInj i f =>
          simp only [noJsBeforeApi] at hx ⊢
          exact ih hx
      | apiInj i =>
          by_cases h : i = extId
          · simp [noJsBeforeApi, h]
          · simp only [noJsBeforeApi, if_neg h] at hx ⊢
            exact ih hx
      | jsInj i f =>
          by_cases h : i = extId
          · simp [noJsBeforeApi, h] at hx
          · simp only [noJsBeforeApi, if_neg h] at hx ⊢
            exact ih hx

/-- Mapped CSS events satisfy the scan. -/
theorem noJsBeforeApi_cssMap (extId i : String) (files : List String) :
    noJsBeforeApi extId (files.map (InjEvent.cssInj i)) = true := by
  induction files with
  | nil => rfl
  | cons f fs ih => simpa [noJsBeforeApi] using ih

/-- Mapped JS events of a DIFFERENT extension satisfy the scan. -/
theorem noJsBeforeApi_jsMap_ne (extId i : String) (h : i ≠ extId) (files : List String) :
    noJsBeforeApi extId (files.map (InjEvent.jsInj i)) = true := by
  induction files with
  | nil => rfl
  | cons f fs ih => simpa [noJsBeforeApi, h] using ih

/-- Within any single block's events, no JS file for an extension precedes
an API-synthesizer injection for it. -/
theorem noJsBeforeApi_blockEvents (extId eid url : String) (s : ContentScript) :
    noJsBeforeApi extId (blockEvents eid url s) = true := by
  unfold blockEvents
  by_cases hm : matchesUrl url s.matchPatterns
  · have hcss : noJsBeforeApi extId
        (match s.css with
         | some files => files.map (InjEvent.cssInj eid)
         | none => []) = true := by
      cases s.css <;> simp [noJsBeforeApi, noJsBeforeApi_cssMap]
    have hjs : noJsBeforeApi extId
        (match s.js with
         | some files => InjEvent.apiInj eid :: files.map (InjEvent.jsInj eid)
         | none => []) = true := by
      cases s.js with
      | none => rfl
      | some files =>
          by_cases h : eid = extId
          · simp [noJsBeforeApi, h]
          · simp [noJsBeforeApi, h, noJsBeforeApi_jsMap_ne extId eid h]
    simp only [hm, if_true]
    exact noJsBeforeApi_append extId _ _ hcss hjs
  · simp [hm, noJsBeforeApi]

/-- The scan lifts through `flatten` when every chunk satisfies it. -/
theorem noJsBeforeApi_flatten (extId : String) (ls : List (List InjEvent))
    (h : ∀ l ∈ ls, noJsBeforeApi extId l = true) :
    noJsBeforeApi extId ls.flatten = true := by
  induction ls with
  | nil => rfl
  | cons l rest ih =>
      simp only [List.flatten_cons]
      exact noJsBeforeApi_append extId _ _ (h l (by simp))
        (ih (fun x hx => h x (by simp [hx])))

/-- Claim C7 counterexample.  (i) An enabled, manually loaded extension
with TWO matching content-script blocks that both declare JS receives the
API-synthesizer script twice on one page — not "exactly once per extension
per page".  (ii) In the renderer pipeline, an extension holding a
native-loader handle is NOT skipped: it still receives CSS, API and JS
injections. -/
theorem c7_counterexample :
    (injectContentScriptsMain [twoBlockExt] "https://example.com/x").count
        (InjEvent.apiInj "e1") = 2
    ∧ injectContentScriptsRenderer [nativeExt] "https://example.com/x"
        = [InjEvent.cssInj "f1" "s.css", InjEvent.apiInj "f1", InjEvent.jsInj "f1" "c.js"] := by
  constructor <;> rfl

/-- Claim C7 as amended.  (i) The MAIN-process pipeline injects nothing for
an extension that is disabled or holds a native-loader handle; (ii) the
RENDERER pipeline skips only disabled extensions; (iii) for an enabled
extension without a native handle, the API-synthesizer script is injected
once per matching JS-declaring content-script block (so once per extension
exactly when one such block matches); (iv) in both pipelines, no JS file of
an extension is ever injected before an API-synthesizer injection for that
extension. -/
theorem c7_injection_pipeline :
    (∀ (url : String) (e : InjExtension),
        e.electronId.isSome = true ∨ e.enabled = false → extEventsMain url e = [])
    ∧ (∀ (url : String) (e : InjExtension),
        e.enabled = false → extEventsRenderer url e = [])
    ∧ (∀ (url : String) (e : InjExtension),
        e.enabled = true → e.electronId = none →
        (extEventsMain url e).count (InjEvent.apiInj e.id)
          = (e.contentScripts.filter
              (fun s => matchesUrl url s.matchPatterns && s.js.isSome)).length)
    ∧ (∀ (exts : List InjExtension) (url extId : String),
        noJsBeforeApi extId (injectContentScriptsMain exts url) = true
        ∧ noJsBeforeApi extId (injectContentScriptsRenderer exts url) = true) := by
  refine ⟨?_, ?_, ?_, ?_⟩
  · intro url e h
    rcases h with h | h <;> simp [extEventsMain, h]
  · intro url e h
    simp [extEventsRenderer, h]
  · intro url e hen hid
    have key : ∀ (blocks : List ContentScript),
        ((blocks.map (blockEvents e.id url)).flatten).count (InjEvent.apiInj e.id)
          = (blocks.filter (fun s => matchesUrl url s.matchPatterns && s.js.isSome)).length := by
      intro blocks
      induction blocks with
      | nil => rfl
      | cons s rest ih =>
          simp only [List.map_cons, List.flatten_cons, List.count_append, ih,
                     List.filter_cons, count_api_blockEvents]
          by_cases hb : (matchesUrl url s.matchPatterns && s.js.isSome) = true
          · simp [hb, Nat.add_comm]
          · simp [hb]
    simp [extEventsMain, hid, hen, key]
  · intro exts url extId
    constructor
    · unfold injectContentScriptsMain
      refine noJsBeforeApi_flatten extId _ ?_
      intro l hl
      rcases List.mem_map.mp hl with ⟨e, _, rfl⟩
      unfold extEventsMain
      by_cases h1 : e.electronId.isSome
      · simp [h1, noJsBeforeApi]
      · by_cases h2 : e.enabled
        · simp only [h1, h2, if_false, not_true, Bool.not_eq_true, if_neg]
          refine noJsBeforeApi_flatten extId _ ?_
          intro b hb
          rcases List.mem_map.mp hb with ⟨s, _, rfl⟩
          exact noJsBeforeApi_blockEvents extId e.id url s
        · simp [h1, h2, noJsBeforeApi]
    · unfold injectContentScriptsRenderer
      refine noJsBeforeApi_flatten extId _ ?_
      intro l hl
      rcases List.mem_map.mp hl with ⟨e, _, rfl⟩
      unfold extEventsRenderer
      by_cases h2 : e.enabled
      · simp only [h2, if_neg, not_true, Bool.not_eq_true]
        refine noJsBeforeApi_flatten extId _ ?_
        intro b hb
        rcases List.mem_map.mp hb with ⟨s, _, rfl⟩
        exact noJsBeforeApi_blockEvents extId e.id url s
      · simp [h2, noJsBeforeApi]

/-- Witness for C7's amended theorem: the native-handle extension is
skipped by the main pipeline, a disabled extension by the renderer one, the
two-block extension gets two per-block API injections, and the scan holds
on the concrete two-block trace. -/
theorem c7_witness :
    extEventsMain "https://example.com/x" nativeExt = []
    ∧ extEventsRenderer "https://example.com/x"
        { id := "d1", enabled := false, electronId := none, contentScripts := [] } = []
    ∧ (extEventsMain "https://example.com/x" twoBlockExt).count (InjEvent.apiInj "e1") = 2
    ∧ noJsBeforeApi "e1" (injectContentScriptsMain [twoBlockExt] "https://example.com/x") = true :=
  ⟨c7_injection_pipeline.1 "https://example.com/x" nativeExt (Or.inl rfl),
   c7_injection_pipeline.2.1 "https://example.com/x"
     { id := "d1", enabled := false, electronId := none, contentScripts := [] } rfl,
   by
     have h := c7_injection_pipeline.2.2.1 "https://example.com/x" twoBlockExt rfl rfl
     simpa using h,
   (c7_injection_pipeline.2.2.2 [twoBlockExt] "https://example.com/x" "e1").1⟩

/-- The combined per-character effect of the code's three sequential
replacements. -/
def codeChunk (c : Char) : List Char :=
  replaceCharBy '?' ['.'] (replaceCharBy '*' ['.', '*'] (replaceCharBy '.' ['\\', '.'] [c]))

/-- The code's regex construction processes one character at a time. -/
theorem buildRegexChars_cons (c : Char) (cs : List Char) :
    buildRegexChars (c :: cs) = codeChunk c ++ buildRegexChars cs := by
  simp [buildRegexChars, codeChunk, replaceCharBy, List.flatMap_cons, List.flatMap_append]

/-- On characters where no escaping difference can arise (alphanumerics,
`:` `/` `.` `*` `?`), the spec's full-metacharacter escaping and the code's
dot-only escaping emit the same chunk. -/
theorem benign_chunk_eq (c : Char) (hb : benignChar c = true) :
    (if specEscapeSet.contains c then ['\\', c]
     else if c = '*' then ['.', '*'] else if c = '?' then ['.'] else [c])
    = codeChunk c := by
  by_cases hdot : c = '.'
  · subst hdot; rfl
  · by_cases hstar : c = '*'
    · subst hstar; rfl
    · by_cases hq : c = '?'
      · subst hq; rfl
      · have hmem : ¬ c ∈ specEscapeSet := by
          intro hmem
          fin_cases hmem <;> first | exact hdot rfl | exact absurd hb (by decide)
        have hesc : specEscapeSet.contains c = false := by
          simpa using hmem
        simp [hesc, hmem, hstar, hq, codeChunk, replaceCharBy, hdot]

/-- On all-benign patterns the two regex constructions agree. -/
theorem benign_build_eq (p : List Char) (hb : p.all benignChar = true) :
    specBuildRegexChars p = buildRegexChars p := by
  induction p with
  | nil => rfl
  | cons c cs ih =>
      simp only [List.all_cons, Bool.and_eq_true] at hb
      calc specBuildRegexChars (c :: cs)
          = (if specEscapeSet.contains c then ['\\', c]
             else if c = '*' then ['.', '*'] else if c = '?' then ['.'] else [c])
            ++ specBuildRegexChars cs := by
            simp [specBuildRegexChars, List.flatMap_cons]
        _ = codeChunk c ++ buildRegexChars cs := by
            rw [benign_chunk_eq c hb.1, ih hb.2]
        _ = buildRegexChars (c :: cs) := (buildRegexChars_cons c cs).symm

/-- Claim C4 counterexample.  `testPattern` does NOT behave as the regex
built by escaping every metacharacter except `*` and `?`: the code escapes
only `.`, so the pattern `a+b` keeps `+` as a live quantifier and matches
the url `aab`, while the spec's escaping makes it the literal substring
`a+b`, which does not occur in `aab`. -/
theorem c4_counterexample :
    testPattern "aab" "a+b" = true ∧ specTestPattern "aab" "a+b" = false := by
  decide

/-- Claim C4 as amended.  `testPattern` behaves as the regex built by
escaping only `.` (not every metacharacter), converting `*` → `.*` and
`?` → `.`, anchored with `^...$` exactly when the pattern contains `://`
and unanchored (substring search) otherwise; on patterns made only of
alphanumerics and `:` `/` `.` `*` `?` this coincides with the spec's
full-escaping description, and the spec's three vectors hold. -/
theorem c4_testPattern_semantics :
    (∀ url p : String, benignPattern p = true → testPattern url p = specTestPattern url p)
    ∧ testPattern "https://example.com/foo" "*://example.com/*" = true
    ∧ testPattern "https://other.com/" "*://example.com/*" = false
    ∧ testPattern "example.com" "example.com" = true := by
  refine ⟨?_, by decide, by decide, by decide⟩
  intro url p hb
  unfold testPattern specTestPattern
  rw [benign_build_eq p.toList hb]

/-- Witness for C4's amended theorem: the (benign) third spec vector's
pattern agrees between the two constructions on a concrete url. -/
theorem c4_witness :
    benignPattern "example.com" = true
    ∧ testPattern "https://example.com/" "example.com"
        = specTestPattern "https://example.com/" "example.com" :=
  ⟨by decide,
   c4_testPattern_semantics.1 "https://example.com/" "example.com" (by decide)⟩
